import Mathlib

/-!
Verification of the file-transfer pipeline (sender.py / server.py).

Payload bytes are modelled as `List Nat` (each entry a byte value in 0..255).
The SHA-256 hex digest is an external primitive of the code; the development
is parametric in a hash function `H : List Nat → String`, since no claim
depends on the internals of SHA-256, only on which bytes it is applied to
and on equality of digests.  Randomness (`random.random`, `random.randrange`,
`os.urandom`, `uuid.uuid4`) is modelled by explicit oracle inputs, and the
network (`aiohttp`) by an explicit response/outcome input.
-/

/-- Configuration record of the sender, mirroring `SenderConfig` in sender.py. -/
structure SenderConfig where
  num_files : Nat
  num_workers : Nat
  url : String
  save_dir : String
  inject_bad_checksums : Bool
deriving DecidableEq

/-- Exceptions that can escape `send_blob`: an aiohttp transport failure
(connection error / timeout), a malformed 200 response (`response.json()` or
the missing `message` key raising), the `ValueError` raised by assigning 256
to a bytearray cell, and the `IndexError` of `blob[0]` on an empty payload. -/
inductive SendError where
  | transportError
  | malformedResponse
  | valueError
  | indexError
deriving DecidableEq

/-- Outcome of the HTTP POST as seen by `send_blob`: either a response with a
status code and (for well-formed JSON bodies) the `message` field, or a
transport-level failure raised by aiohttp. -/
inductive NetResult where
  | response (status : Nat) (message : Option String)
  | transportError
deriving DecidableEq

/-- Per-call oracle inputs of `send_blob`: the generated `uuid.uuid4()` string,
the boolean outcome of the draw `random.random() < 0.1`, and the network
outcome of the POST. -/
structure ItemOracle where
  uuidStr : String
  faultDraw : Bool
  net : NetResult
deriving DecidableEq

/-- The fault-injection mutation of sender.py lines 66-67:
`blob = bytearray(blob); blob[0] += 1`.  On an empty payload `blob[0]`
raises IndexError; when the first byte is 255 the assignment of 256 raises
`ValueError: byte must be in range(0, 256)`; otherwise byte 0 is replaced by
its successor and all other bytes are untouched. -/
def corruptBlob (blob : List Nat) : Except SendError (List Nat) :=
  match blob with
  | [] => .error .indexError
  | b :: rest => if b + 1 < 256 then .ok ((b + 1) :: rest) else .error .valueError

/-- Observable effects of one successful pass through `send_blob`: the local
file written (path and bytes), and the transmitted multipart request
(metadata id and hash, payload bytes read back from the file), plus the
decoded response message when the status was 200. -/
structure SendEffects where
  filePath : String
  fileBytes : List Nat
  sentId : String
  sentHash : String
  sentBytes : List Nat
  responseMessage : Option String
deriving DecidableEq

/-- `send_blob` of sender.py: generate an id, compute the checksum of the
payload, optionally corrupt the payload (when `inject_bad_checksums` is set
and the 10% draw fired), write the (possibly corrupted) payload to
`<save_dir>/sender-<id>.bin`, and POST the file's bytes together with the
metadata.  A non-200 status is only logged; an exception anywhere is
propagated to the caller as `Except.error`. -/
def send_blob (H : List Nat → String) (o : ItemOracle) (blob : List Nat)
    (config : SenderConfig) : Except SendError SendEffects :=
  let new_id := o.uuidStr
  let checksum := H blob
  match (if config.inject_bad_checksums && o.faultDraw then corruptBlob blob
         else .ok blob) with
  | .error e => .error e
  | .ok blob2 =>
    let path := config.save_dir ++ "/sender-" ++ new_id ++ ".bin"
    match o.net with
    | .transportError => .error .transportError
    | .response status msg =>
      if status = 200 then
        match msg with
        | some m => .ok ⟨path, blob2, new_id, checksum, blob2, some m⟩
        | none => .error .malformedResponse
      else .ok ⟨path, blob2, new_id, checksum, blob2, none⟩

/-- Final state of one worker task over the finite list of items it dequeues:
either it processed every item, marked each done, and exited on the
cancellation signal, or an exception other than CancelledError escaped
`send_blob` and the task died.  `tasksDone` counts the `queue.task_done()`
calls the worker made. -/
inductive WorkerOutcome where
  | cancelled (tasksDone : Nat)
  | crashed (tasksDone : Nat) (e : SendError)
deriving DecidableEq

/-- `send_worker` of sender.py: loop dequeuing one payload, awaiting
`send_blob`, then calling `queue.task_done()`.  Only `asyncio.CancelledError`
is caught (modelled as the end of the item list); any exception raised by
`send_blob` propagates and kills the task before `task_done` is called for
that item, leaving the remaining items unprocessed. -/
def send_worker (H : List Nat → String) (config : SenderConfig) :
    List (List Nat × ItemOracle) → WorkerOutcome
  | [] => .cancelled 0
  | (blob, o) :: rest =>
    match send_blob H o blob config with
    | .error e => .crashed 0 e
    | .ok _ =>
      match send_worker H config rest with
      | .cancelled k => .cancelled (k + 1)
      | .crashed k e => .crashed (k + 1) e

/-- `random.randrange(lo, hi)`: modelled as `lo` plus the entropy reduced
modulo the width, which realizes exactly the contract that the result lies
in `[lo, hi)` whenever `lo < hi`. -/
def randrange (entropy : Nat) (lo hi : Nat) : Nat := lo + entropy % (hi - lo)

/-- `os.urandom(size)`: `size` bytes whose values come from the entropy
oracle. -/
def os_urandom (bytes : Nat → Nat) (size : Nat) : List Nat :=
  (List.range size).map (fun i => bytes i % 256)

/-- Entropy consumed by one `__next__` call of the blob provider: the draw
behind `random.randrange` and the byte stream behind `os.urandom`. -/
structure EntropyDraw where
  sizeEntropy : Nat
  byteEntropy : Nat → Nat

/-- `RandomBlobProvider` of sender.py: an iterator that yields `N` random
blobs, counting the calls made so far in `count`. -/
structure RandomBlobProvider where
  count : Nat
  N : Nat
  min_size : Nat
  max_size : Nat

/-- `RandomBlobProvider.__iter__`: reset `count` so the provider can be
iterated again. -/
def RandomBlobProvider.iter (p : RandomBlobProvider) : RandomBlobProvider :=
  { p with count := 0 }

/-- `RandomBlobProvider.__next__`: increment `count`, stop (return `none`)
once it exceeds `N`, otherwise draw a size with
`random.randrange(min_size, max_size)` and return `os.urandom(size)`. -/
def RandomBlobProvider.next (p : RandomBlobProvider) (draw : EntropyDraw) :
    Option (List Nat × RandomBlobProvider) :=
  let p2 : RandomBlobProvider := { p with count := p.count + 1 }
  if p2.count > p.N then none
  else some (os_urandom draw.byteEntropy
              (randrange draw.sizeEntropy p.min_size p.max_size), p2)

/-- Exhausting the iterator (the `for blob in blob_provider` loop of
`generate_worker`): call `__next__` until `StopIteration`, collecting the
yielded blobs in order. -/
def RandomBlobProvider.run (p : RandomBlobProvider)
    (entropy : Nat → EntropyDraw) : List (List Nat) :=
  match h : p.next (entropy p.count) with
  | none => []
  | some bp => bp.1 :: bp.2.run entropy
termination_by p.N - p.count
decreasing_by
  unfold RandomBlobProvider.next at h
  simp only [gt_iff_lt] at h
  split at h
  · exact absurd h (by simp)
  · rename_i hle
    have h2 : bp.2 = { p with count := p.count + 1 } := by
      rw [← Option.some.inj h]
    rw [h2]
    simp only []
    omega

/-- The blob sequence consumed by `generate_worker` in sender.py: a fresh
`RandomBlobProvider(min_size=1024, max_size=1024*1024, N=num_files)`
iterated to exhaustion. -/
def generate_worker_blobs (num_files : Nat) (entropy : Nat → EntropyDraw) :
    List (List Nat) :=
  (RandomBlobProvider.mk 0 num_files 1024 (1024 * 1024)).run entropy

/-- Configuration of the receiver (`config` dict of server.py): the uploads
directory and the `verify_hash` flag (`not args.disable_checksum_verification`). -/
structure ServerConfig where
  uploads_dir : String
  verify_hash : Bool
deriving DecidableEq

/-- Result of `json.loads` on the `metadata` form field: either a JSON object
(a finite map of string fields; the wire protocol only carries string
values), or text that is not valid JSON, on which `json.loads` raises
`json.JSONDecodeError`. -/
inductive MetaJson where
  | obj (fields : List (String × String))
  | malformed
deriving DecidableEq

/-- The parsed multipart form data of a POST request as seen by
`upload_handler`: each field is present or absent; `bin_file` carries the
payload bytes, `metadata` the JSON text (represented by its parse result). -/
structure PostData where
  bin_file : Option (List Nat)
  metadata : Option MetaJson
deriving DecidableEq

/-- `verify_checksum` of server.py: recompute the digest of the received
blob and compare it with the declared checksum. -/
def verify_checksum (H : List Nat → String) (checksum : String)
    (blob : List Nat) : Bool :=
  let new_checksum := H blob
  checksum == new_checksum

/-- `validate_upload_metadata` of server.py: the JSON object must contain
`id` and `hash` fields. -/
def validate_upload_metadata (j : List (String × String)) : Bool :=
  if (j.lookup "id").isNone then false
  else if (j.lookup "hash").isNone then false
  else true

/-- `validate_post` of server.py: the form data must contain `bin_file` and
`metadata` fields. -/
def validate_post (d : PostData) : Bool :=
  if d.bin_file.isNone then false
  else if d.metadata.isNone then false
  else true

/-- Result of one `upload_handler` invocation: a returned response (status,
optional JSON body text, and the list of files written as path/bytes pairs),
or an exception escaping the handler — which aiohttp's default behaviour
turns into a 500 Internal Server Error, never a 400. -/
inductive UploadResult where
  | resp (status : Nat) (body : Option String) (written : List (String × List Nat))
  | raised (exc : String)
deriving DecidableEq

/-- `upload_handler` of server.py: validate the form fields (400 with empty
body if `bin_file` or `metadata` is missing), read the payload bytes, parse
the metadata JSON (`json.loads` raises on malformed text — uncaught), check
the `id`/`hash` fields (400 if missing), optionally verify the checksum
(400 and no write on mismatch), then write `server-<id>.bin` and respond 200
with the friendly message. -/
def upload_handler (H : List Nat → String) (config : ServerConfig)
    (d : PostData) : UploadResult :=
  if !(validate_post d) then .resp 400 none []
  else
    match d.bin_file, d.metadata with
    | some blob, some m =>
      match m with
      | .malformed => .raised "json.JSONDecodeError"
      | .obj j =>
        if !(validate_upload_metadata j) then .resp 400 none []
        else
          match j.lookup "id", j.lookup "hash" with
          | some content_id, some content_hash =>
            if config.verify_hash && !(verify_checksum H content_hash blob) then
              .resp 400 none []
            else
              let path := config.uploads_dir ++ "/server-" ++ content_id ++ ".bin"
              .resp 200
                (some ("Successfully received the " ++ toString blob.length
                       ++ " byte file"))
                [(path, blob)]
          | _, _ => .raised "KeyError"
    | _, _ => .raised "KeyError"

/-!
Concurrency model of `main` in sender.py: one generator task, `asyncio.Queue`
with `maxsize = num_files`, a pool of `send_worker` tasks, and
`await generate_worker(...)` followed by `await queue.join()`.

Items are identified by their enqueue index (the generator enqueues item 0,
then 1, ...).  The state records the queue contents, the dequeue order, the
items currently inside a worker's `send_blob` call, the items whose
`send_blob` returned but whose `task_done()` is pending, the items marked
done, the items lost to an uncaught exception, and the asyncio bookkeeping:
`unfinished` is the queue's `_unfinished_tasks` counter (incremented by
`put`, decremented by `task_done`), and `joined` records that the `await
queue.join()` in `main` has returned.  `written`/`attempted` record the side
effects of `send_blob`: the local file write and the HTTP upload attempt.
-/
structure PipeState where
  nextItem : Nat
  queue : List Nat
  deqOrder : List Nat
  inFlight : List Nat
  donePend : List Nat
  doneItems : List Nat
  lost : List Nat
  written : List Nat
  attempted : List Nat
  unfinished : Nat
  joined : Bool
deriving DecidableEq

/-- Interleaving step relation of the sender pipeline with `N` payloads and
queue capacity `cap`.  Each constructor is one scheduler step at a suspension
point:
* `put` — the generator awaits `queue.put(blob)`; enabled only while fewer
  than `N` items are generated and the queue is below capacity (backpressure),
  and it increments `_unfinished_tasks`;
* `get` — a worker's `await queue.get()` returns the oldest item;
*`process` — the worker's shielded `send_blob` completes: the local file is
  written and the upload attempted (success or a handled non-200 status);
* `markDone` — the worker calls `queue.task_done()` for a processed item;
* `crashAfterSend` — `send_blob` raises after the file write and the POST
  (transport error or malformed response): the exception escapes
  `send_worker` and no `task_done` ever happens for the item;
* `crashBeforeSend` — `send_blob` raises before the file write (the
  fault-injection `ValueError`/`IndexError`): likewise no `task_done`;
* `join` — `await queue.join()` in `main` returns; it runs after the
  generator completed (all `N` items put) and, per `asyncio.Queue.join`,
  only when `_unfinished_tasks` is zero. -/
inductive PipeStep (N cap : Nat) : PipeState → PipeState → Prop where
  | put (s : PipeState) (h1 : s.nextItem < N) (h2 : s.queue.length < cap) :
      PipeStep N cap s { s with nextItem := s.nextItem + 1,
                                queue := s.queue ++ [s.nextItem],
                                unfinished := s.unfinished + 1 }
  | get (s : PipeState) (x : Nat) (rest : List Nat) (h : s.queue = x :: rest) :
      PipeStep N cap s { s with queue := rest,
                                deqOrder := s.deqOrder ++ [x],
                                inFlight := s.inFlight ++ [x] }
  | process (s : PipeState) (l1 : List Nat) (x : Nat) (l2 : List Nat)
      (h : s.inFlight = l1 ++ x :: l2) :
      PipeStep N cap s { s with inFlight := l1 ++ l2,
                                donePend := s.donePend ++ [x],
                                written := s.written ++ [x],
                                attempted := s.attempted ++ [x] }
  | markDone (s : PipeState) (l1 : List Nat) (x : Nat) (l2 : List Nat)
      (h : s.donePend = l1 ++ x :: l2) :
      PipeStep N cap s { s with donePend := l1 ++ l2,
                                doneItems := s.doneItems ++ [x],
                                unfinished := s.unfinished - 1 }
  | crashAfterSend (s : PipeState) (l1 : List Nat) (x : Nat) (l2 : List Nat)
      (h : s.inFlight = l1 ++ x :: l2) :
      PipeStep N cap s { s with inFlight := l1 ++ l2,
                                lost := s.lost ++ [x],
                                written := s.written ++ [x],
                                attempted := s.attempted ++ [x] }
  | crashBeforeSend (s : PipeState) (l1 : List Nat) (x : Nat) (l2 : List Nat)
      (h : s.inFlight = l1 ++ x :: l2) :
      PipeStep N cap s { s with inFlight := l1 ++ l2,
                                lost := s.lost ++ [x] }
  | join (s : PipeState) (hg : s.nextItem = N) (hu : s.unfinished = 0) :
      PipeStep N cap s { s with joined := true }

/-- The initial state of `main`: nothing generated, empty queue, counter at
zero, `join()` not yet returned. -/
def pipeInit : PipeState :=
  ⟨0, [], [], [], [], [], [], [], [], 0, false⟩

/-- States reachable from the initial state by interleaved scheduler steps. -/
def PipeReachable (N cap : Nat) (s : PipeState) : Prop :=
  Relation.ReflTransGen (PipeStep N cap) pipeInit s

/-- The inductive invariant of the pipeline:
* `i1` — dequeue order followed by current queue contents is exactly the
  enqueue order (items `0..nextItem-1` in order): FIFO and no loss;
* `i2` — every dequeued item is in exactly one of `inFlight`, `donePend`,
  `doneItems`, `lost` (as multisets);
* `i3` — `_unfinished_tasks` equals puts minus task_dones;
* `i4` — an item reaches `donePend` or `doneItems` only after its file write
  and upload attempt;
* `i5` — the queue never exceeds its capacity;
* `i6` — once `join()` has returned, all `N` items were generated and the
  counter is zero. -/
structure PipeInv (N cap : Nat) (s : PipeState) : Prop where
  i1 : s.deqOrder ++ s.queue = List.range s.nextItem
  i2 : (↑s.inFlight + ↑s.donePend + ↑s.doneItems + ↑s.lost : Multiset Nat)
         = ↑s.deqOrder
  i3 : s.nextItem = s.unfinished + s.doneItems.length
  i4 : ∀ x ∈ s.donePend ++ s.doneItems, x ∈ s.written ∧ x ∈ s.attempted
  i5 : s.queue.length ≤ cap
  i6 : s.joined = true → s.unfinished = 0 ∧ s.nextItem = N

theorem pipeInv_init (N cap : Nat) : PipeInv N cap pipeInit := by
  constructor <;> simp [pipeInit]

/-- The `_unfinished_tasks` counter always equals the number of items that
are enqueued, in flight, awaiting `task_done`, or lost to a crash. -/
theorem pipeInv_counts {N cap : Nat} {s : PipeState} (hs : PipeInv N cap s) :
    s.unfinished = s.queue.length + s.inFlight.length + s.donePend.length
      + s.lost.length := by
  have h1 := congrArg List.length hs.i1
  have h2 := congrArg Multiset.card hs.i2
  simp only [List.length_append, List.length_range] at h1
  simp only [Multiset.card_add, Multiset.coe_card] at h2
  have h3 := hs.i3
  omega

theorem pipeInv_step {N cap : Nat} {s s' : PipeState}
    (hs : PipeInv N cap s) (hstep : PipeStep N cap s s') : PipeInv N cap s' := by
  have hcnt := pipeInv_counts hs
  obtain ⟨i1, i2, i3, i4, i5, i6⟩ := hs
  cases hstep with
  | put h1 h2 =>
    refine ⟨?_, ?_, ?_, ?_, ?_, ?_⟩
    · show s.deqOrder ++ (s.queue ++ [s.nextItem]) = List.range (s.nextItem + 1)
      rw [← List.append_assoc, i1, List.range_succ]
    · exact i2
    · show s.nextItem + 1 = (s.unfinished + 1) + s.doneItems.length
      omega
    · exact i4
    · show (s.queue ++ [s.nextItem]).length ≤ cap
      simp only [List.length_append, List.length_singleton]
      omega
    · intro hj
      exact absurd ((i6 hj).2) (Nat.ne_of_lt h1)
  | get x rest h =>
    refine ⟨?_, ?_, i3, i4, ?_, i6⟩
    · show (s.deqOrder ++ [x]) ++ rest = List.range s.nextItem
      rw [List.append_assoc, List.singleton_append, ← h]
      exact i1
    · show (↑(s.inFlight ++ [x]) + ↑s.donePend + ↑s.doneItems + ↑s.lost
             : Multiset Nat) = ↑(s.deqOrder ++ [x])
      rw [← Multiset.coe_add, ← Multiset.coe_add, ← i2]
      abel
    · show rest.length ≤ cap
      rw [h] at i5
      simp only [List.length_cons] at i5
      omega
  | process l1 x l2 h =>
    refine ⟨i1, ?_, i3, ?_, i5, i6⟩
    · show (↑(l1 ++ l2) + ↑(s.donePend ++ [x]) + ↑s.doneItems + ↑s.lost
             : Multiset Nat) = ↑s.deqOrder
      rw [← i2, h]
      simp only [← Multiset.coe_add, ← Multiset.cons_coe,
        ← Multiset.singleton_add]
      abel
    · intro y hy
      simp only [List.mem_append, List.mem_singleton] at hy ⊢
      rcases hy with (hy | rfl) | hy
      · have := i4 y (by simp [List.mem_append, hy])
        tauto
      · exact ⟨Or.inr rfl, Or.inr rfl⟩
      · have := i4 y (by simp [List.mem_append, hy])
        tauto
  | markDone l1 x l2 h =>
    have hdp : s.donePend.length = l1.length + l2.length + 1 := by
      rw [h]; simp; omega
    refine ⟨i1, ?_, ?_, ?_, i5, ?_⟩
    · show (↑s.inFlight + ↑(l1 ++ l2) + ↑(s.doneItems ++ [x]) + ↑s.lost
             : Multiset Nat) = ↑s.deqOrder
      rw [← i2, h]
      simp only [← Multiset.coe_add, ← Multiset.cons_coe,
        ← Multiset.singleton_add]
      abel
    · show s.nextItem = (s.unfinished - 1) + (s.doneItems ++ [x]).length
      simp only [List.length_append, List.length_singleton]
      omega
    · intro y hy
      refine i4 y ?_
      rw [h]
      simp only [List.mem_append, List.mem_cons, List.mem_singleton] at hy ⊢
      tauto
    · intro hj
      have := (i6 hj).1
      omega
  | crashAfterSend l1 x l2 h =>
    refine ⟨i1, ?_, i3, ?_, i5, i6⟩
    · show (↑(l1 ++ l2) + ↑s.donePend + ↑s.doneItems + ↑(s.lost ++ [x])
             : Multiset Nat) = ↑s.deqOrder
      rw [← i2, h]
      simp only [← Multiset.coe_add, ← Multiset.cons_coe,
        ← Multiset.singleton_add]
      abel
    · intro y hy
      have := i4 y hy
      simp only [List.mem_append, List.mem_singleton]
      tauto
  | crashBeforeSend l1 x l2 h =>
    refine ⟨i1, ?_, i3, i4, i5, i6⟩
    show (↑(l1 ++ l2) + ↑s.donePend + ↑s.doneItems + ↑(s.lost ++ [x])
           : Multiset Nat) = ↑s.deqOrder
    rw [← i2, h]
    simp only [← Multiset.coe_add, ← Multiset.cons_coe,
      ← Multiset.singleton_add]
    abel
  | join hg hu =>
    exact ⟨i1, i2, i3, i4, i5, fun _ => ⟨hu, hg⟩⟩

/-- Every reachable state of the pipeline satisfies the invariant. -/
theorem pipeInv_reachable {N cap : Nat} {s : PipeState}
    (h : PipeReachable N cap s) : PipeInv N cap s := by
  induction h with
  | refl => exact pipeInv_init N cap
  | tail _ hstep ih => exact pipeInv_step ih hstep

/-- A concrete stand-in digest function used to instantiate the parametric
development on concrete inputs; the claims are independent of the digest
internals. -/
def demoHash (blob : List Nat) : String := toString (blob.length + blob.sum)

/-- A concrete sender configuration without fault injection. -/
def demoSenderCfg : SenderConfig :=
  ⟨2, 1, "http://127.0.0.1:8000/uploads", "/tmp", false⟩

/-- A concrete sender configuration with fault injection enabled. -/
def demoInjectCfg : SenderConfig :=
  ⟨2, 1, "http://127.0.0.1:8000/uploads", "/tmp", true⟩

/-- A concrete receiver configuration with checksum verification enabled. -/
def demoServerCfg : ServerConfig := ⟨"/tmp", true⟩

/-- Characterization of a successful `send_blob` pass: the file bytes are the
output of the (possibly skipped) corruption step, the transmitted bytes are
the file bytes, and the transmitted checksum is the digest of the original
payload. -/
theorem send_blob_effects (H : List Nat → String) (o : ItemOracle)
    (blob : List Nat) (config : SenderConfig) (e : SendEffects)
    (h : send_blob H o blob config = .ok e) :
    (if config.inject_bad_checksums && o.faultDraw then corruptBlob blob
     else .ok blob) = .ok e.fileBytes ∧
    e.sentBytes = e.fileBytes ∧ e.sentHash = H blob ∧ e.sentId = o.uuidStr ∧
    e.filePath = config.save_dir ++ "/sender-" ++ o.uuidStr ++ ".bin" := by
  unfold send_blob at h
  split at h
  · exact absurd h (by simp)
  · rename_i blob2 heq
    split at h
    · exact absurd h (by simp)
    · rename_i status msg
      split at h
      · split at h
        · cases h
          exact ⟨heq, rfl, rfl, rfl, rfl⟩
        · exact absurd h (by simp)
      · cases h
        exact ⟨heq, rfl, rfl, rfl, rfl⟩

/-- C2 (counterexample): with fault injection triggering on payload `[0, 1]`,
`send_blob` writes the corrupted bytes `[1, 1]` to the local file — not the
original payload, contradicting the claim that the saved file holds the
pre-corruption bytes.  The corruption happens before the file write (sender.py
lines 64-75). -/
theorem send_blob_saved_file_not_original :
    send_blob demoHash ⟨"u0", true, .response 200 (some "ok")⟩ [0, 1]
      demoInjectCfg
      = .ok ⟨"/tmp/sender-u0.bin", [1, 1], "u0", "3", [1, 1], some "ok"⟩ ∧
    ([1, 1] : List Nat) ≠ [0, 1] := by
  exact ⟨rfl, by decide⟩

/-- A successful corruption step changes the payload. -/
theorem corruptBlob_ok_ne (blob blob2 : List Nat)
    (h : corruptBlob blob = .ok blob2) : blob2 ≠ blob := by
  cases blob with
  | nil => simp [corruptBlob] at h
  | cons b rest =>
    simp only [corruptBlob] at h
    split at h
    · have := Except.ok.inj h
      rw [← this]
      intro hbad
      have : b + 1 = b := (List.cons.inj hbad).1
      omega
    · exact absurd h (by simp)

/-- C2 (amended): on every successful `send_blob` pass the bytes written to
`sender-<uuid>.bin` and the bytes transmitted to the server are byte-identical;
when fault injection triggers both equal the corrupted payload (and differ
from the original), otherwise both equal the original payload. -/
theorem send_blob_file_equals_sent_bytes (H : List Nat → String)
    (o : ItemOracle) (blob : List Nat) (config : SenderConfig)
    (e : SendEffects) (h : send_blob H o blob config = .ok e) :
    e.fileBytes = e.sentBytes ∧
    ((config.inject_bad_checksums && o.faultDraw) = false → e.fileBytes = blob) ∧
    ((config.inject_bad_checksums && o.faultDraw) = true →
      corruptBlob blob = .ok e.fileBytes ∧ e.fileBytes ≠ blob) := by
  obtain ⟨hc, hsent, -, -, -⟩ := send_blob_effects H o blob config e h
  refine ⟨hsent.symm, ?_, ?_⟩
  · intro hcond
    rw [hcond] at hc
    simp at hc
    exact hc.symm
  · intro hcond
    rw [hcond] at hc
    simp at hc
    exact ⟨hc, corruptBlob_ok_ne blob e.fileBytes hc⟩

theorem send_blob_file_equals_sent_bytes_witness :
    corruptBlob [0, 1] =
      .ok ((⟨"/tmp/sender-u0.bin", [1, 1], "u0", "3", [1, 1], some "ok"⟩
            : SendEffects).fileBytes) ∧
    (⟨"/tmp/sender-u0.bin", [1, 1], "u0", "3", [1, 1], some "ok"⟩
       : SendEffects).fileBytes ≠ [0, 1] :=
  (send_blob_file_equals_sent_bytes demoHash
    ⟨"u0", true, .response 200 (some "ok")⟩ [0, 1] demoInjectCfg
    ⟨"/tmp/sender-u0.bin", [1, 1], "u0", "3", [1, 1], some "ok"⟩ rfl).2.2 rfl

/-- C3: the checksum placed in the transmitted metadata is the digest of the
original payload bytes, computed before any fault-injection mutation; hence
when fault injection triggers, the transmitted payload differs from the bytes
the declared checksum was computed over. -/
theorem send_blob_checksum_of_original (H : List Nat → String)
    (o : ItemOracle) (blob : List Nat) (config : SenderConfig)
    (e : SendEffects) (h : send_blob H o blob config = .ok e) :
    e.sentHash = H blob ∧
    ((config.inject_bad_checksums && o.faultDraw) = true →
      e.sentBytes ≠ blob) := by
  obtain ⟨hc, hsent, hhash, -, -⟩ := send_blob_effects H o blob config e h
  refine ⟨hhash, ?_⟩
  intro hcond
  rw [hcond] at hc
  simp at hc
  rw [hsent]
  exact corruptBlob_ok_ne blob e.fileBytes hc

theorem send_blob_checksum_of_original_witness :
    (⟨"/tmp/sender-u0.bin", [1, 1], "u0", "3", [1, 1], some "ok"⟩
       : SendEffects).sentHash = demoHash [0, 1] ∧
    (⟨"/tmp/sender-u0.bin", [1, 1], "u0", "3", [1, 1], some "ok"⟩
       : SendEffects).sentBytes ≠ [0, 1] :=
  ⟨(send_blob_checksum_of_original demoHash
      ⟨"u0", true, .response 200 (some "ok")⟩ [0, 1] demoInjectCfg
      ⟨"/tmp/sender-u0.bin", [1, 1], "u0", "3", [1, 1], some "ok"⟩ rfl).1,
   (send_blob_checksum_of_original demoHash
      ⟨"u0", true, .response 200 (some "ok")⟩ [0, 1] demoInjectCfg
      ⟨"/tmp/sender-u0.bin", [1, 1], "u0", "3", [1, 1], some "ok"⟩ rfl).2 rfl⟩

/-- C1: the claimed best-effort policy holds only for non-200 HTTP responses.
A transport error raised by the POST escapes `send_blob` and `send_worker`
catches only CancelledError, so the worker task dies: the failing item is
never marked done (`tasksDone = 0`) and the following item is never
processed.  A non-200 response, by contrast, is handled: the item is marked
done and the worker keeps running until cancelled. -/
theorem send_worker_transport_crash :
    send_worker demoHash demoSenderCfg
      [([0, 1], ⟨"u0", false, .transportError⟩),
       ([2, 3], ⟨"u1", false, .response 200 (some "ok")⟩)]
      = .crashed 0 .transportError ∧
    send_worker demoHash demoSenderCfg
      [([0, 1], ⟨"u0", false, .response 503 none⟩)]
      = .cancelled 1 :=
  ⟨rfl, rfl⟩

/-- C10: the fault-injection corruption replaces byte 0 by its successor and
keeps every other byte when the first byte is below 255; when the first byte
is 255 the bytearray assignment raises ValueError, which propagates out of
`send_blob`. -/
theorem corrupt_blob_increments_first_byte (b : Nat) (rest : List Nat)
    (H : List Nat → String) (o : ItemOracle) (config : SenderConfig)
    (hinj : config.inject_bad_checksums = true) (hdraw : o.faultDraw = true) :
    (b < 255 → corruptBlob (b :: rest) = .ok ((b + 1) :: rest)) ∧
    (b = 255 → corruptBlob (b :: rest) = .error .valueError ∧
               send_blob H o (b :: rest) config = .error .valueError) := by
  constructor
  · intro hb
    simp only [corruptBlob]
    rw [if_pos (by omega)]
  · rintro rfl
    have hc : corruptBlob (255 :: rest) = .error .valueError := by
      simp [corruptBlob]
    refine ⟨hc, ?_⟩
    unfold send_blob
    simp [hinj, hdraw, hc]

theorem corrupt_blob_increments_first_byte_witness :
    corruptBlob [3, 7] = .ok [4, 7] ∧
    (corruptBlob [255, 7] = .error .valueError ∧
     send_blob demoHash ⟨"u0", true, .response 200 (some "ok")⟩ [255, 7]
       demoInjectCfg = .error .valueError) :=
  ⟨(corrupt_blob_increments_first_byte 3 [7] demoHash
      ⟨"u0", true, .response 200 (some "ok")⟩ demoInjectCfg rfl rfl).1
      (by decide),
   (corrupt_blob_increments_first_byte 255 [7] demoHash
      ⟨"u0", true, .response 200 (some "ok")⟩ demoInjectCfg rfl rfl).2 rfl⟩

/-- C4 (counterexample): a request whose `metadata` field is present but not
valid JSON makes `json.loads` raise inside the handler; the exception is not
caught, so aiohttp answers 500 — not the claimed 400 with empty body. -/
theorem upload_handler_malformed_json_raises :
    upload_handler demoHash demoServerCfg ⟨some [0], some .malformed⟩
      = .raised "json.JSONDecodeError" ∧
    upload_handler demoHash demoServerCfg ⟨some [0], some .malformed⟩
      ≠ .resp 400 none [] := by
  exact ⟨rfl, by decide⟩

/-- C4 (amended): a request whose multipart body lacks the `bin_file` or
`metadata` field, or whose metadata is a JSON object lacking the `id` or
`hash` field, is answered 400 with an empty body and no file is written.
(Metadata that is not parseable JSON instead raises an uncaught exception —
see the counterexample.) -/
theorem upload_handler_validation_400 (H : List Nat → String)
    (config : ServerConfig) (d : PostData) (j : List (String × String))
    (h : d.bin_file = none ∨ d.metadata = none ∨
         (d.metadata = some (.obj j) ∧ validate_upload_metadata j = false)) :
    upload_handler H config d = .resp 400 none [] := by
  obtain ⟨bf, md⟩ := d
  rcases h with h | h | ⟨h, hj⟩
  · simp only at h
    subst h
    simp [upload_handler, validate_post]
  · simp only at h
    subst h
    cases bf <;> simp [upload_handler, validate_post]
  · simp only at h
    subst h
    cases bf with
    | none => simp [upload_handler, validate_post]
    | some blob => simp [upload_handler, validate_post, hj]

theorem upload_handler_validation_400_witness :
    upload_handler demoHash demoServerCfg ⟨none, none⟩ = .resp 400 none [] :=
  upload_handler_validation_400 demoHash demoServerCfg ⟨none, none⟩ []
    (Or.inl rfl)

/-- C5: with checksum verification enabled, a valid request whose recomputed
digest does not equal the declared hash is answered 400 and no file is
persisted. -/
theorem upload_handler_checksum_mismatch_400 (H : List Nat → String)
    (config : ServerConfig) (blob : List Nat) (j : List (String × String))
    (cid chash : String)
    (hid : j.lookup "id" = some cid) (hhash : j.lookup "hash" = some chash)
    (hverify : config.verify_hash = true)
    (hmismatch : verify_checksum H chash blob = false) :
    upload_handler H config ⟨some blob, some (.obj j)⟩ = .resp 400 none [] := by
  simp [upload_handler, validate_post, validate_upload_metadata, hid, hhash,
    hverify, hmismatch]

theorem upload_handler_checksum_mismatch_400_witness :
    upload_handler demoHash demoServerCfg
      ⟨some [5], some (.obj [("id", "a"), ("hash", "deadbeef")])⟩
      = .resp 400 none [] :=
  upload_handler_checksum_mismatch_400 demoHash demoServerCfg [5]
    [("id", "a"), ("hash", "deadbeef")] "a" "deadbeef" rfl rfl rfl (by decide)

/-- C8: a request that passes field validation and (when enabled) checksum
verification is persisted unchanged to `<uploads_dir>/server-<id>.bin` and
answered 200 with the JSON message naming the received byte count. -/
theorem upload_handler_success_persists (H : List Nat → String)
    (config : ServerConfig) (blob : List Nat) (j : List (String × String))
    (cid chash : String)
    (hid : j.lookup "id" = some cid) (hhash : j.lookup "hash" = some chash)
    (hpass : config.verify_hash = true → verify_checksum H chash blob = true) :
    upload_handler H config ⟨some blob, some (.obj j)⟩ =
      .resp 200
        (some ("Successfully received the " ++ toString blob.length
               ++ " byte file"))
        [(config.uploads_dir ++ "/server-" ++ cid ++ ".bin", blob)] := by
  cases hv : config.verify_hash with
  | false =>
    simp [upload_handler, validate_post, validate_upload_metadata, hid, hhash,
      hv]
  | true =>
    simp [upload_handler, validate_post, validate_upload_metadata, hid, hhash,
      hv, hpass hv]

theorem upload_handler_success_persists_witness :
    upload_handler demoHash demoServerCfg
      ⟨some [5], some (.obj [("id", "a"), ("hash", "6")])⟩ =
      .resp 200
        (some ("Successfully received the " ++ toString ([5] : List Nat).length
               ++ " byte file"))
        [(demoServerCfg.uploads_dir ++ "/server-" ++ "a" ++ ".bin", [5])] :=
  upload_handler_success_persists demoHash demoServerCfg [5]
    [("id", "a"), ("hash", "6")] "a" "6" rfl rfl (fun _ => by decide)

/-- `random.randrange(lo, hi)` yields a value in `[lo, hi)` whenever
`lo < hi`. -/
theorem randrange_mem (e lo hi : Nat) (h : lo < hi) :
    lo ≤ randrange e lo hi ∧ randrange e lo hi < hi := by
  unfold randrange
  have := Nat.mod_lt e (show 0 < hi - lo by omega)
  omega

/-- `os.urandom(size)` yields exactly `size` bytes. -/
theorem os_urandom_length (f : Nat → Nat) (size : Nat) :
    (os_urandom f size).length = size := by
  simp [os_urandom]

/-- Iterating the provider from any position yields one blob per remaining
count, each of length in `[min_size, max_size)`. -/
theorem blob_provider_run_spec (mn mx : Nat) (entropy : Nat → EntropyDraw)
    (hlt : mn < mx) :
    ∀ (k : Nat) (p : RandomBlobProvider), p.min_size = mn → p.max_size = mx →
      p.N - p.count = k →
      ((p.run entropy).length = k ∧
        ∀ b ∈ p.run entropy, mn ≤ b.length ∧ b.length < mx) := by
  intro k
  induction k with
  | zero =>
    intro p hmn hmx hk
    rw [RandomBlobProvider.run]
    split
    · simp
    · rename_i bp heq
      exfalso
      simp only [RandomBlobProvider.next] at heq
      rw [if_pos (by omega)] at heq
      exact absurd heq (by simp)
  | succ k ih =>
    intro p hmn hmx hk
    rw [RandomBlobProvider.run]
    split
    · rename_i heq
      exfalso
      simp only [RandomBlobProvider.next] at heq
      rw [if_neg (by omega)] at heq
      exact absurd heq (by simp)
    · rename_i bp heq
      simp only [RandomBlobProvider.next] at heq
      rw [if_neg (by omega)] at heq
      have hbp := Option.some.inj heq
      have hb1 : bp.1 = os_urandom (entropy p.count).byteEntropy
          (randrange (entropy p.count).sizeEntropy p.min_size p.max_size) := by
        rw [← hbp]
      have hb2 : bp.2 = { p with count := p.count + 1 } := by
        rw [← hbp]
      have ihr := ih bp.2 (by rw [hb2]; exact hmn) (by rw [hb2]; exact hmx)
        (by rw [hb2]; simp only []; omega)
      constructor
      · simp only [List.length_cons, ihr.1]
      · intro b hb
        rcases List.mem_cons.mp hb with rfl | hbmem
        · rw [hb1, os_urandom_length, hmn, hmx]
          exact randrange_mem _ mn mx hlt
        · exact ihr.2 b hbmem

/-- C9: for every configuration with `min_size < max_size`, iterating the
provider from the start (`__iter__` resets `count`) produces exactly `N`
blobs, each of length in `[min_size, max_size)`. -/
theorem blob_provider_count_and_size (p : RandomBlobProvider)
    (entropy : Nat → EntropyDraw) (hlt : p.min_size < p.max_size) :
    ((p.iter).run entropy).length = p.N ∧
    ∀ b ∈ (p.iter).run entropy,
      p.min_size ≤ b.length ∧ b.length < p.max_size :=
  blob_provider_run_spec p.min_size p.max_size entropy hlt p.N p.iter rfl rfl
    (by simp [RandomBlobProvider.iter])

/-- A concrete entropy stream for instantiating the provider theorems. -/
def demoEntropy : Nat → EntropyDraw := fun _ => ⟨0, fun _ => 0⟩

theorem blob_provider_count_and_size_witness :
    (((RandomBlobProvider.mk 5 3 1 2).iter).run demoEntropy).length = 3 :=
  (blob_provider_count_and_size ⟨5, 3, 1, 2⟩ demoEntropy (by decide)).1

/-- C6: when the `await queue.join()` barrier in `main` has returned, the
`_unfinished_tasks` counter is zero — so no item is enqueued-but-not-marked-
done (the queue, the in-flight set, and the pending-`task_done` set are all
empty) — and every one of the `N` generated payloads has been dequeued,
marked done, written to the sender's local disk, and had an upload attempt
made for it. -/
theorem queue_join_drain_barrier (N cap : Nat) (s : PipeState)
    (hr : PipeReachable N cap s) (hj : s.joined = true) :
    s.unfinished = 0 ∧ s.queue = [] ∧ s.inFlight = [] ∧ s.donePend = [] ∧
    ∀ i < N, i ∈ s.doneItems ∧ i ∈ s.written ∧ i ∈ s.attempted := by
  have inv := pipeInv_reachable hr
  obtain ⟨i1, i2, i3, i4, i5, i6⟩ := inv
  obtain ⟨hu, hn⟩ := i6 hj
  have hlen1 : s.deqOrder.length + s.queue.length = N := by
    have h := congrArg List.length i1
    simp only [List.length_append, List.length_range] at h
    omega
  have hcard : s.inFlight.length + s.donePend.length + s.doneItems.length
      + s.lost.length = s.deqOrder.length := by
    have h := congrArg Multiset.card i2
    simp only [Multiset.card_add, Multiset.coe_card] at h
    omega
  have hdone : s.doneItems.length = N := by omega
  have hq : s.queue = [] := List.length_eq_zero.mp (by omega)
  have hif : s.inFlight = [] := List.length_eq_zero.mp (by omega)
  have hdp : s.donePend = [] := List.length_eq_zero.mp (by omega)
  have hlost : s.lost = [] := List.length_eq_zero.mp (by omega)
  refine ⟨hu, hq, hif, hdp, ?_⟩
  intro i hi
  have hdeq : s.deqOrder = List.range N := by
    have := i1
    rw [hq, hn, List.append_nil] at this
    exact this
  have hdm : (↑s.doneItems : Multiset Nat) = ↑(List.range N) := by
    have := i2
    rw [hif, hdp, hlost, hdeq] at this
    simpa using this
  have hmem : i ∈ s.doneItems := by
    have : i ∈ (↑s.doneItems : Multiset Nat) := by
      rw [hdm]
      exact Multiset.mem_coe.mpr (List.mem_range.mpr hi)
    exact Multiset.mem_coe.mp this
  have h4 := i4 i (by rw [hdp]; simpa using hmem)
  exact ⟨hmem, h4.1, h4.2⟩

/-- C7: in every reachable state the queue holds at most `cap` items, and the
dequeue order followed by the current queue contents is exactly the enqueue
order `0, 1, ..., nextItem-1`: items are dequeued in FIFO order relative to
enqueue order and no enqueued item is ever dropped. -/
theorem queue_capacity_fifo (N cap : Nat) (s : PipeState)
    (hr : PipeReachable N cap s) :
    s.queue.length ≤ cap ∧ s.deqOrder ++ s.queue = List.range s.nextItem :=
  ⟨(pipeInv_reachable hr).i5, (pipeInv_reachable hr).i1⟩

/-- Intermediate states of a concrete one-item run of the pipeline with
`N = cap = 1`: put, get, process, task_done, join. -/
def pipeS1 : PipeState := ⟨1, [0], [], [], [], [], [], [], [], 1, false⟩

def pipeS2 : PipeState := ⟨1, [], [0], [0], [], [], [], [], [], 1, false⟩

def pipeS3 : PipeState := ⟨1, [], [0], [], [0], [], [], [0], [0], 1, false⟩

def pipeS4 : PipeState := ⟨1, [], [0], [], [], [0], [], [0], [0], 0, false⟩

def pipeS5 : PipeState := ⟨1, [], [0], [], [], [0], [], [0], [0], 0, true⟩

/-- The concrete run is reachable. -/
theorem pipeReach_demo : PipeReachable 1 1 pipeS5 := by
  have h1 : PipeStep 1 1 pipeInit pipeS1 :=
    PipeStep.put pipeInit (by decide) (by decide)
  have h2 : PipeStep 1 1 pipeS1 pipeS2 :=
    PipeStep.get pipeS1 0 [] rfl
  have h3 : PipeStep 1 1 pipeS2 pipeS3 :=
    PipeStep.process pipeS2 [] 0 [] rfl
  have h4 : PipeStep 1 1 pipeS3 pipeS4 :=
    PipeStep.markDone pipeS3 [] 0 [] rfl
  have h5 : PipeStep 1 1 pipeS4 pipeS5 :=
    PipeStep.join pipeS4 rfl rfl
  exact .tail (.tail (.tail (.tail (.tail .refl h1) h2) h3) h4) h5

theorem queue_join_drain_barrier_witness :
    pipeS5.unfinished = 0 ∧ pipeS5.queue = [] ∧ 0 ∈ pipeS5.doneItems ∧
    0 ∈ pipeS5.written ∧ 0 ∈ pipeS5.attempted :=
  ⟨(queue_join_drain_barrier 1 1 pipeS5 pipeReach_demo rfl).1,
   (queue_join_drain_barrier 1 1 pipeS5 pipeReach_demo rfl).2.1,
   ((queue_join_drain_barrier 1 1 pipeS5 pipeReach_demo rfl).2.2.2.2 0
     (by decide)).1,
   ((queue_join_drain_barrier 1 1 pipeS5 pipeReach_demo rfl).2.2.2.2 0
     (by decide)).2.1,
   ((queue_join_drain_barrier 1 1 pipeS5 pipeReach_demo rfl).2.2.2.2 0
     (by decide)).2.2⟩

theorem queue_capacity_fifo_witness :
    pipeS5.queue.length ≤ 1 ∧
    pipeS5.deqOrder ++ pipeS5.queue = List.range pipeS5.nextItem :=
  queue_capacity_fifo 1 1 pipeS5 pipeReach_demo
